import Mathlib

/-!
Verification of the slack-langbuilder-bridge core against its specification.

The Python sources are shallowly embedded: strings are lists of characters,
the SQLite tables are association lists, exceptions are `Except`/`Option`
results, and the HTTP backend is a function from attempt number to outcome.
-/

namespace SlackBridge

/-! ## Character / string utilities (Python `str.strip` family) -/

/-- Python whitespace for `str.strip` and friends, restricted to the ASCII
characters that occur in chat text. -/
def pyIsSpace (c : Char) : Bool :=
  c = ' ' || c = '\t' || c = '\n' || c = '\r' || c = '\x0b' || c = '\x0c'

/-- Python `s.lstrip()` on a character list. -/
def lstripL (s : List Char) : List Char :=
  s.dropWhile pyIsSpace

/-- Python `s.rstrip()` on a character list. -/
def rstripL (s : List Char) : List Char :=
  (lstripL s.reverse).reverse

/-- Python `s.strip()` on a character list. -/
def pyStrip (s : List Char) : List Char :=
  rstripL (lstripL s)

/-- Python `s.strip()` on a `String`. -/
def pyStripS (s : String) : String :=
  ⟨pyStrip s.data⟩

/-- Descending search: the largest index `j ≤ start` at which `sub` occurs in
`s`, if any. -/
def rfindFrom (sub s : List Char) : Nat → Option Nat
  | 0 => if sub.isPrefixOf s then some 0 else none
  | i + 1 => if sub.isPrefixOf (s.drop (i + 1)) then some (i + 1) else rfindFrom sub s i

/-- Python `s.rfind(sub, 0, e)` for a non-empty `sub`: highest index of an
occurrence of `sub` contained entirely in `s[0:e]`, `none` when absent. -/
def rfindIn (sub s : List Char) (e : Nat) : Option Nat :=
  let eff := min e s.length
  if sub.length ≤ eff then rfindFrom sub s (eff - sub.length) else none

/-! ## `response_parser.format_for_slack` -/

/-- The split point chosen by one iteration of the `format_for_slack` loop:
a double newline, then a single newline, then a space — each searched in
`remaining[0:maxLength]` — and a hard cut at `maxLength` as last resort. -/
def splitPoint (remaining : List Char) (maxLength : Nat) : Nat :=
  match rfindIn ['\n', '\n'] remaining maxLength with
  | some i => i
  | none =>
    match rfindIn ['\n'] remaining maxLength with
    | some i => i
    | none =>
      match rfindIn [' '] remaining maxLength with
      | some i => i
      | none => maxLength

/-- The `while remaining:` loop of `format_for_slack`, with explicit fuel.
`format_for_slack` runs it with fuel `message.length`, which is shown to be
enough for any positive `maxLength`. -/
def chunkLoop (maxLength : Nat) : Nat → List Char → List (List Char)
  | 0, _ => []
  | fuel + 1, remaining =>
    if remaining.isEmpty then []
    else if remaining.length ≤ maxLength then [remaining]
    else
      let sp := splitPoint remaining maxLength
      rstripL (remaining.take sp) :: chunkLoop maxLength fuel (lstripL (remaining.drop sp))

/-- `format_for_slack` from `response_parser.py`: split a message into chunks
of at most `maxLength` characters, preferring paragraph, newline and space
boundaries, in that order. -/
def format_for_slack (message : List Char) (maxLength : Nat) : List (List Char) :=
  if message.isEmpty then []
  else if message.length ≤ maxLength then [message]
  else chunkLoop maxLength message.length message

/-- `ReJoins cs s` holds when interleaving the chunks `cs` with some
whitespace-only separator runs (one run after each chunk, possibly empty)
yields exactly the text `s`. -/
def ReJoins : List (List Char) → List Char → Prop
  | [], s => s = []
  | c :: cs, s => ∃ w rest, (∀ x ∈ w, pyIsSpace x = true) ∧ s = c ++ (w ++ rest) ∧ ReJoins cs rest

/-! ## JSON model and `response_parser.extract_message` -/

/-- Untyped JSON tree: the shape of Langflow response payloads. -/
inductive Json where
  | null
  | bool (b : Bool)
  | num (n : Int)
  | str (s : String)
  | arr (xs : List Json)
  | obj (kvs : List (String × Json))

/-- Python truthiness of a JSON value (the `if not x:` tests). -/
def jFalsy : Json → Bool
  | .null => true
  | .bool b => !b
  | .num n => n = 0
  | .str s => s.isEmpty
  | .arr xs => xs.isEmpty
  | .obj kvs => kvs.isEmpty

/-- Python `x.get(k, default)`: `none` models the `AttributeError` raised when
the receiver is not a dict, which `extract_message` catches and turns into the
empty string. -/
def jGetD (j : Json) (k : String) (d : Json) : Option Json :=
  match j with
  | .obj kvs => some ((kvs.lookup k).getD d)
  | _ => none

/-- Key lookup in a JSON object; `none` for a missing key or a non-object
(the probes only apply it after their own `in` / `isinstance` checks). -/
def jGet (j : Json) (k : String) : Option Json :=
  match j with
  | .obj kvs => kvs.lookup k
  | _ => none

/-- Python `x[0]`: `none` models the exception raised when `x` is not a
non-empty list. (Indexing a string yields a one-character string in Python,
but every continuation of that value inside `extract_message` raises and is
caught, so the observable result is the same.) -/
def jIndex0 : Json → Option Json
  | .arr (x :: _) => some x
  | _ => none

/-- `_try_artifacts_message` from `response_parser.py`. -/
def tryArtifactsMessage (result : Json) : Option String :=
  match jGet result "artifacts" with
  | none => none
  | some artifacts =>
    match artifacts with
    | .obj akvs =>
      match akvs.lookup "message" with
      | some (.str m) => if pyStripS m ≠ "" then some (pyStripS m) else none
      | _ => none
    | _ => none

/-- `_try_messages_array` from `response_parser.py`: note that it reads the
first entry's "message" field. -/
def tryMessagesArray (result : Json) : Option String :=
  match jGet result "messages" with
  | some (.arr (first :: _)) =>
    match first with
    | .obj fkvs =>
      match fkvs.lookup "message" with
      | some (.str m) => if pyStripS m ≠ "" then some (pyStripS m) else none
      | _ => none
    | _ => none
  | _ => none

/-- `_try_results_message_text` from `response_parser.py`. -/
def tryResultsMessageText (result : Json) : Option String :=
  match jGet result "results" with
  | some (.obj rkvs) =>
    match rkvs.lookup "message" with
    | some (.obj mkvs) =>
      match mkvs.lookup "text" with
      | some (.str t) => if pyStripS t ≠ "" then some (pyStripS t) else none
      | _ => none
    | _ => none
  | _ => none

/-- `_try_results_message_data_text` from `response_parser.py`. -/
def tryResultsMessageDataText (result : Json) : Option String :=
  match jGet result "results" with
  | some (.obj rkvs) =>
    match rkvs.lookup "message" with
    | some (.obj mkvs) =>
      match mkvs.lookup "data" with
      | some (.obj dkvs) =>
        match dkvs.lookup "text" with
        | some (.str t) => if pyStripS t ≠ "" then some (pyStripS t) else none
        | _ => none
      | _ => none
    | _ => none
  | _ => none

/-- `_try_results_message_string` from `response_parser.py`. -/
def tryResultsMessageString (result : Json) : Option String :=
  match jGet result "results" with
  | some (.obj rkvs) =>
    match rkvs.lookup "message" with
    | some (.str m) => if pyStripS m ≠ "" then some (pyStripS m) else none
    | _ => none
  | _ => none

/-- The probe cascade of `extract_message` on the unwrapped result object.
A result that is not a dict always ends in the empty string in Python —
either every `in` probe misses, or the subsequent indexing raises (caught by
the `except` clause) — so it is collapsed to one branch. The probes return
either `none` or a non-empty stripped string, so matching on `Option` mirrors
the `if message:` truthiness tests. -/
def extractFromResult (result : Json) : String :=
  match result with
  | .obj _ =>
    match tryArtifactsMessage result with
    | some m => m
    | none =>
      match tryMessagesArray result with
      | some m => m
      | none =>
        match tryResultsMessageText result with
        | some m => m
        | none =>
          match tryResultsMessageDataText result with
          | some m => m
          | none =>
            match tryResultsMessageString result with
            | some m => m
            | none => ""
  | _ => ""

/-- `extract_message` from `response_parser.py`. Every exception raised while
walking the payload is caught by the function's `except` clause and yields the
empty string; those paths are the `""` branches below. -/
def extract_message (response : Json) : String :=
  match jGetD response "outputs" (.arr []) with
  | none => ""
  | some outputs =>
    if jFalsy outputs then ""
    else
      match jIndex0 outputs with
      | none => ""
      | some out0 =>
        match jGetD out0 "outputs" (.arr []) with
        | none => ""
        | some innerOutputs =>
          if jFalsy innerOutputs then ""
          else
            match jIndex0 innerOutputs with
            | none => ""
            | some result => extractFromResult result

/-- Follow a path of object keys through a JSON tree. -/
def jPath (j : Json) : List String → Option Json
  | [] => some j
  | k :: ks =>
    match j with
    | .obj kvs =>
      match kvs.lookup k with
      | some v => jPath v ks
      | none => none
    | _ => none

/-- A string-valued JSON leaf, whitespace-trimmed; `none` when absent, not a
string, or empty after trimming. -/
def trimmedNonEmpty : Option Json → Option String
  | some (.str s) => if pyStripS s = "" then none else some (pyStripS s)
  | _ => none

/-- Strategy 1 as the spec words it: a structured artifacts message field. -/
def specStratArtifacts (result : Json) : Option String :=
  trimmedNonEmpty (jPath result ["artifacts", "message"])

/-- Strategy 2 as the claim words it literally: the first entry of a
"messages" list's "text" field. -/
def specStratMessagesText (result : Json) : Option String :=
  match jPath result ["messages"] with
  | some (.arr (first :: _)) => trimmedNonEmpty (jPath first ["text"])
  | _ => none

/-- Strategy 2 as amended: the first entry of a "messages" list's "message"
field. -/
def specStratMessages (result : Json) : Option String :=
  match jPath result ["messages"] with
  | some (.arr (first :: _)) => trimmedNonEmpty (jPath first ["message"])
  | _ => none

/-- Strategy 3: nested results.message.text. -/
def specStratResultsText (result : Json) : Option String :=
  trimmedNonEmpty (jPath result ["results", "message", "text"])

/-- Strategy 4: nested results.message.data.text. -/
def specStratResultsDataText (result : Json) : Option String :=
  trimmedNonEmpty (jPath result ["results", "message", "data", "text"])

/-- Strategy 5: results.message itself when it is a plain string. -/
def specStratResultsString (result : Json) : Option String :=
  trimmedNonEmpty (jPath result ["results", "message"])

/-- First non-`none` result of the ordered strategies. -/
def firstStrategy (strategies : List (Json → Option String)) (result : Json) : Option String :=
  match strategies with
  | [] => none
  | f :: fs =>
    match f result with
    | some m => some m
    | none => firstStrategy fs result

/-- The extraction contract as the spec words it, parameterised by the list of
strategies: unwrap the two outer "outputs" arrays and return the first
non-empty whitespace-trimmed strategy match, or the empty string when the
wrappers are missing or no strategy matches. -/
def specExtractWith (strategies : List (Json → Option String)) (response : Json) : String :=
  match response with
  | .obj kvs =>
    match kvs.lookup "outputs" with
    | some (.arr (out0 :: _)) =>
      match out0 with
      | .obj okvs =>
        match okvs.lookup "outputs" with
        | some (.arr (result :: _)) => (firstStrategy strategies result).getD ""
        | _ => ""
      | _ => ""
    | _ => ""
  | _ => ""

/-- The claim's extraction contract read literally (strategy 2 uses the "text"
field of the first "messages" entry). -/
def specExtractClaim (response : Json) : String :=
  specExtractWith
    [specStratArtifacts, specStratMessagesText, specStratResultsText,
     specStratResultsDataText, specStratResultsString] response

/-- The amended extraction contract (strategy 2 uses the "message" field of
the first "messages" entry). -/
def specExtractAmended (response : Json) : String :=
  specExtractWith
    [specStratArtifacts, specStratMessages, specStratResultsText,
     specStratResultsDataText, specStratResultsString] response

/-- A payload whose first "messages" entry carries both a "text" and a
"message" field, separating the literal claim (strategy 2 reads "text") from
the code (which reads "message"). -/
def c3Payload : Json :=
  Json.obj [("outputs", Json.arr [Json.obj [("outputs", Json.arr [Json.obj
    [("messages", Json.arr [Json.obj [("text", Json.str "T"), ("message", Json.str "M")]])]])]])]

/-! ## `langflow_client.LangflowClient.run_flow` -/

/-- One HTTP attempt's outcome as seen inside `run_flow`: a response with a
status code (the parsed JSON body is consumed on 200, the text body on
errors), an `httpx.TimeoutException`, or an `httpx.RequestError`. -/
inductive PostOutcome where
  | resp (status : Nat) (body : Json) (text : String)
  | timeoutExc
  | requestExc (msg : String)

/-- The errors `run_flow` can raise: `LangflowAPIError` with status and body,
`LangflowTimeoutError`, the generic `LangflowError` for transport failures,
and the fallback raised when no attempt recorded an error. -/
inductive RunError where
  | apiError (status : Nat) (body : String)
  | timeoutError
  | requestFailed (msg : String)
  | unknown
deriving DecidableEq

/-- The retry loop of `run_flow`: `attempt` is the loop counter, `left` the
number of loop iterations remaining (`maxRetries + 1` at the start), and
`lastError` the `last_error` slot. Returns the result together with the
number of HTTP attempts made and the list of backoff sleeps performed
(in seconds). -/
def runFlowGo (backend : Nat → PostOutcome) (maxRetries : Nat) :
    Nat → Nat → Option RunError → Except RunError Json × Nat × List Nat
  | _, 0, lastError => (Except.error (lastError.getD RunError.unknown), 0, [])
  | attempt, left + 1, _ =>
    match backend attempt with
    | .resp status body text =>
      if status = 200 then (Except.ok body, 1, [])
      else if 400 ≤ status ∧ status < 500 then
        (Except.error (.apiError status text), 1, [])
      else
        let r := runFlowGo backend maxRetries (attempt + 1) left (some (.apiError status text))
        (r.1, r.2.1 + 1, if attempt < maxRetries then 2 ^ attempt :: r.2.2 else r.2.2)
    | .timeoutExc =>
      let r := runFlowGo backend maxRetries (attempt + 1) left (some .timeoutError)
      (r.1, r.2.1 + 1, if attempt < maxRetries then 2 ^ attempt :: r.2.2 else r.2.2)
    | .requestExc m =>
      let r := runFlowGo backend maxRetries (attempt + 1) left (some (.requestFailed m))
      (r.1, r.2.1 + 1, if attempt < maxRetries then 2 ^ attempt :: r.2.2 else r.2.2)

/-- `LangflowClient.run_flow`: run the `for attempt in range(max_retries + 1)`
loop from attempt 0 with an empty `last_error` slot. -/
def run_flow (backend : Nat → PostOutcome) (maxRetries : Nat) :
    Except RunError Json × Nat × List Nat :=
  runFlowGo backend maxRetries 0 (maxRetries + 1) none

/-- The retryable-error classification of a single attempt: `some e` when the
attempt neither succeeds (status 200) nor fails fatally (4xx), with `e` the
error recorded in `last_error`. -/
def stepRetryErr : PostOutcome → Option RunError
  | .resp status _ text =>
    if status = 200 then none
    else if 400 ≤ status ∧ status < 500 then none
    else some (.apiError status text)
  | .timeoutExc => some .timeoutError
  | .requestExc m => some (.requestFailed m)

/-! ## `session_manager.SessionManager` -/

/-- One row of the `sessions` table (the autoincrement id is immaterial and
omitted; `thread_key` is the association-list key). -/
structure SessionRow where
  session_id : String
  flow_name : Option String
  created_at : Nat
  updated_at : Nat
deriving DecidableEq

/-- `SessionInfo` from `session_manager.py`. -/
structure SessionInfo where
  session_id : String
  flow_name : Option String
  is_new : Bool
deriving DecidableEq

/-- The `sessions` table: rows keyed by the UNIQUE `thread_key`. -/
abbrev SessionStore := List (String × SessionRow)

/-- `SessionManager._make_thread_key`. -/
def make_thread_key (channel_id thread_ts : String) : String :=
  channel_id ++ ":" ++ thread_ts

/-- `SessionManager.get_session`: look the thread key up; on a hit refresh
`updated_at` to `now` and return the stored binding (`is_new = false`). -/
def get_session (s : SessionStore) (channel_id thread_ts : String) (now : Nat) :
    SessionStore × Option SessionInfo :=
  let key := make_thread_key channel_id thread_ts
  match s.lookup key with
  | some row =>
    (s.map (fun kv => if kv.1 = key then (kv.1, { kv.2 with updated_at := now }) else kv),
     some ⟨row.session_id, row.flow_name, false⟩)
  | none => (s, none)

/-- `SessionManager.create_session`: INSERT a fresh row under the UNIQUE
`thread_key` constraint. A duplicate key makes the INSERT raise
`aiosqlite.IntegrityError`, modelled as `Except.error`; the source has no
handler for it. `freshId` stands for the generated `uuid.uuid4()`. -/
def create_session (s : SessionStore) (channel_id thread_ts freshId : String)
    (flow_name : Option String) (now : Nat) : Except Unit (SessionStore × SessionInfo) :=
  let key := make_thread_key channel_id thread_ts
  if (s.lookup key).isSome then Except.error ()
  else Except.ok (s ++ [(key, ⟨freshId, flow_name, now, now⟩)], ⟨freshId, flow_name, true⟩)

/-- `SessionManager.get_or_create_session`. -/
def get_or_create_session (s : SessionStore) (channel_id thread_ts freshId : String)
    (flow_name : Option String) (now : Nat) : Except Unit (SessionStore × SessionInfo) :=
  match get_session s channel_id thread_ts now with
  | (s1, some info) => Except.ok (s1, info)
  | (s1, none) => create_session s1 channel_id thread_ts freshId flow_name now

/-- `get_or_create_session` with another task's store mutation interleaved
between the lookup and the creation attempt: the source runs the two on
separate database connections, so a concurrent writer can insert the same
thread key in between. -/
def get_or_create_session_raced (s : SessionStore) (interfere : SessionStore → SessionStore)
    (channel_id thread_ts freshId : String) (flow_name : Option String) (now : Nat) :
    Except Unit (SessionStore × SessionInfo) :=
  match get_session s channel_id thread_ts now with
  | (s1, some info) => Except.ok (s1, info)
  | (s1, none) => create_session (interfere s1) channel_id thread_ts freshId flow_name now

/-! ## `flow_manager.FlowManager` -/

/-- One row of the `flows` table. -/
structure FlowRow where
  name : String
  langflow_url : String
  flow_id : String
  api_key : String
  description : Option String
  created_at : Nat
  is_default : Bool
deriving DecidableEq

/-- `FlowConfig` from `flow_manager.py`. -/
structure FlowConfig where
  name : String
  langflow_url : String
  flow_id : String
  api_key : String
  description : Option String
  is_default : Bool
deriving DecidableEq

/-- The flow database: the `flows` table and the `channel_flows` table
(channel id to flow name). -/
structure FlowsDb where
  flows : List FlowRow
  channel_flows : List (String × String)
deriving DecidableEq

/-- Parse `https?://[^|>]+(\|[^>]*)?>` right after a consumed opening angle
bracket: returns the captured URL and the remainder after the closing bracket. -/
def matchSlackUrl (rest : List Char) : Option (List Char × List Char) :=
  let tryScheme : List Char → Option (List Char × List Char) := fun pre =>
    if pre.isPrefixOf rest then
      let afterScheme := rest.drop pre.length
      let urlBody := afterScheme.takeWhile (fun c => !(c = '|' || c = '>'))
      if urlBody.isEmpty then none
      else
        match afterScheme.drop urlBody.length with
        | '>' :: tail => some (pre ++ urlBody, tail)
        | '|' :: tail2 =>
          let label := tail2.takeWhile (fun c => !(c = '>'))
          match tail2.drop label.length with
          | '>' :: tail3 => some (pre ++ urlBody, tail3)
          | _ => none
        | _ => none
    else none
  match tryScheme ['h', 't', 't', 'p', 's', ':', '/', '/'] with
  | some r => some r
  | none => tryScheme ['h', 't', 't', 'p', ':', '/', '/']

/-- The `re.sub` scan of `clean_slack_formatting`: replace every
`<url>` / `<url|label>` occurrence by the bare URL, left to right. The fuel is
the input length; every step consumes at least one character. -/
def cleanSlackAux : Nat → List Char → List Char
  | 0, s => s
  | _, [] => []
  | fuel + 1, c :: rest =>
    if c = '<' then
      match matchSlackUrl rest with
      | some (url, rest2) => url ++ cleanSlackAux fuel rest2
      | none => c :: cleanSlackAux fuel rest
    else c :: cleanSlackAux fuel rest

/-- `clean_slack_formatting` from `flow_manager.py`: strip Slack auto-link
decoration, then `strip()` the result. -/
def clean_slack_formatting (s : String) : String :=
  pyStripS ⟨cleanSlackAux s.data.length s.data⟩

/-- Does a flow row with this name exist (the PRIMARY KEY check)? -/
def db_has_flow (db : FlowsDb) (name : String) : Bool :=
  db.flows.any (fun f => f.name == name)

/-- `FlowManager.add_flow`. When the name already exists the INSERT raises
`IntegrityError` and the connection closes without commit, rolling back the
earlier default-clearing UPDATE, so the database is unchanged and the call
returns `False`. -/
def add_flow (db : FlowsDb) (name langflow_url flow_id api_key : String)
    (description : Option String) (is_default : Bool) (now : Nat) : FlowsDb × Bool :=
  let url := clean_slack_formatting langflow_url
  if db_has_flow db name then (db, false)
  else
    let flows :=
      if is_default then db.flows.map (fun f => { f with is_default := false }) else db.flows
    ({ db with flows := flows ++ [⟨name, url, flow_id, api_key, description, now, is_default⟩] },
     true)

/-- `FlowManager.update_flow`: only the supplied fields are modified; returns
`False` when no field is supplied or the name is absent. (The URL is not
cleansed here, matching the source.) -/
def update_flow (db : FlowsDb) (name : String)
    (langflow_url flow_id api_key description : Option String) : FlowsDb × Bool :=
  if langflow_url = none ∧ flow_id = none ∧ api_key = none ∧ description = none then (db, false)
  else if db_has_flow db name then
    ({ db with flows := db.flows.map (fun f =>
        if f.name == name then
          { f with
            langflow_url := langflow_url.getD f.langflow_url,
            flow_id := flow_id.getD f.flow_id,
            api_key := api_key.getD f.api_key,
            description := match description with | some d => some d | none => f.description }
        else f) }, true)
  else (db, false)

/-- `FlowManager.remove_flow`: delete the channel bindings referencing the
flow, then the flow row itself; `True` iff a flow row was deleted. -/
def remove_flow (db : FlowsDb) (name : String) : FlowsDb × Bool :=
  ({ flows := db.flows.filter (fun f => f.name != name),
     channel_flows := db.channel_flows.filter (fun b => b.2 != name) },
   db_has_flow db name)

/-- Row-to-dataclass conversion used by the SELECT paths. -/
def row_to_config (f : FlowRow) : FlowConfig :=
  ⟨f.name, f.langflow_url, f.flow_id, f.api_key, f.description, f.is_default⟩

/-- `FlowManager.get_flow`. -/
def get_flow (db : FlowsDb) (name : String) : Option FlowConfig :=
  (db.flows.find? (fun f => f.name == name)).map row_to_config

/-- `FlowManager.get_default_flow` (`SELECT ... WHERE is_default = TRUE
LIMIT 1`; the source builds the config with `is_default=True` literally). -/
def get_default_flow (db : FlowsDb) : Option FlowConfig :=
  (db.flows.find? (fun f => f.is_default)).map
    (fun f => { row_to_config f with is_default := true })

/-- `FlowManager.set_default_flow`: `False` when the name is absent; otherwise
one UPDATE clears every default flag and a second sets it on the named row. -/
def set_default_flow (db : FlowsDb) (name : String) : FlowsDb × Bool :=
  if db_has_flow db name then
    ({ db with flows := db.flows.map (fun f => { f with is_default := f.name == name }) }, true)
  else (db, false)

/-- `FlowManager.set_channel_flow`: `False` when the flow does not exist,
otherwise `INSERT OR REPLACE` of the binding row. -/
def set_channel_flow (db : FlowsDb) (channel_id flow_name : String) : FlowsDb × Bool :=
  if (get_flow db flow_name).isSome then
    ({ db with channel_flows :=
        db.channel_flows.filter (fun b => b.1 != channel_id) ++ [(channel_id, flow_name)] },
     true)
  else (db, false)

/-- `FlowManager.remove_channel_flow`. -/
def remove_channel_flow (db : FlowsDb) (channel_id : String) : FlowsDb × Bool :=
  ({ db with channel_flows := db.channel_flows.filter (fun b => b.1 != channel_id) },
   db.channel_flows.any (fun b => b.1 == channel_id))

/-- `FlowManager.get_channel_flow`: when a binding row exists, return whatever
`get_flow` gives for the bound name; only when no binding row exists fall back
to the default flow. -/
def get_channel_flow (db : FlowsDb) (channel_id : String) : Option FlowConfig :=
  match db.channel_flows.find? (fun b => b.1 == channel_id) with
  | some b => get_flow db b.2
  | none => get_default_flow db

/-- `FlowManager.get_channel_flow_name`. -/
def get_channel_flow_name (db : FlowsDb) (channel_id : String) : Option String :=
  (db.channel_flows.find? (fun b => b.1 == channel_id)).map (fun b => b.2)

/-- Number of rows with the default flag set. -/
def countDefaults : List FlowRow → Nat
  | [] => 0
  | f :: fs => (if f.is_default then 1 else 0) + countDefaults fs

/-- Number of rows carrying a given name. -/
def countNamed (name : String) : List FlowRow → Nat
  | [] => 0
  | f :: fs => (if f.name = name then 1 else 0) + countNamed name fs

/-- The default-flag invariant: at most one flow row has it set. -/
def AtMostOneDefault (db : FlowsDb) : Prop :=
  countDefaults db.flows ≤ 1

/-- The PRIMARY KEY invariant of the `flows` table: names are unique. -/
def NamesUnique (db : FlowsDb) : Prop :=
  (db.flows.map (fun f => f.name)).Nodup

/-! ## `slack_handler.SlackHandler` admission bookkeeping -/

/-- The in-memory dedup state of the handler: the in-flight admission set
`_processing`, the replay-suppression map `_processed_messages`, and the
bot-participation set `_bot_threads`. -/
structure HandlerState where
  processing : List String
  processed_messages : List (String × Nat)
  bot_threads : List String

/-- Whether the guarded body ran to completion or raised. The `except` clauses
of `_handle_message` only send notices; they touch none of the dedup state. -/
inductive ProcOutcome where
  | ok
  | raised

/-- `self._processing.add(message_key)` (a set add). -/
def add_processing (st : HandlerState) (key : String) : HandlerState :=
  { st with processing :=
      if st.processing.contains key then st.processing else key :: st.processing }

/-- The admission-guarded section of `SlackHandler._handle_message`: add the
key to the in-flight set, run the body (which may succeed or raise), then — in
the `finally` block, on every path — discard the key from the in-flight set
and stamp the replay-suppression map with the completion time. -/
def handle_guarded (st : HandlerState) (key : String)
    (body : HandlerState → HandlerState × ProcOutcome) (completionTime : Nat) : HandlerState :=
  let st2 := (body (add_processing st key)).1
  { st2 with
    processing := st2.processing.filter (fun k => k != key),
    processed_messages :=
      (key, completionTime) :: st2.processed_messages.filter (fun kv => kv.1 != key) }

/-- The flow actually used to send a message (`_handle_message` lines
259-267): the channel's resolved flow, unless the session is bound to a
different, still-resolvable flow, in which case the session's flow wins; a
session flow that no longer resolves is silently ignored. -/
def choose_send_flow (db : FlowsDb) (channelFlow : FlowConfig)
    (sessionFlow : Option String) : FlowConfig :=
  match sessionFlow with
  | some fn =>
    if fn ≠ "" ∧ fn ≠ channelFlow.name then
      match get_flow db fn with
      | some orig => orig
      | none => channelFlow
    else channelFlow
  | none => channelFlow

/-- The `flows remove` command path: it calls `FlowManager.remove_flow` (and
invalidates the cached HTTP client); the session store is not touched. -/
def sys_remove_flow (db : FlowsDb) (sessions : SessionStore) (name : String) :
    (FlowsDb × SessionStore) × Bool :=
  let r := remove_flow db name
  ((r.1, sessions), r.2)

/-! ## Helper lemmas -/

theorem contains_filter_bne_self (l : List String) (key : String) :
    (l.filter (fun k => k != key)).contains key = false := by
  induction l with
  | nil => rfl
  | cons a t ih =>
    by_cases h : a = key
    · simp [List.filter_cons, h, ih]
    · simp [List.filter_cons, h, ih, List.contains_cons, Ne.symm h]

theorem lookup_map_refresh (s : List (String × SessionRow)) (key : String)
    (g : SessionRow → SessionRow) (row : SessionRow) (h : s.lookup key = some row) :
    (s.map (fun kv => if kv.1 = key then (kv.1, g kv.2) else kv)).lookup key = some (g row) := by
  induction s with
  | nil => simp at h
  | cons kv t ih =>
    by_cases hk : kv.1 = key
    · simp only [List.map_cons, if_pos hk]
      simp only [List.lookup, hk, beq_self_eq_true] at h ⊢
      simp at h
      simp [h]
    · simp only [List.map_cons, if_neg hk]
      have hne : (key == kv.1) = false := by simp [Ne.symm hk]
      simp only [List.lookup, hne] at h ⊢
      exact ih h

/-! ## Theorems for the claims -/

theorem tryArtifactsMessage_eq (r : Json) :
    tryArtifactsMessage r = specStratArtifacts r := by
  cases r with
  | obj kvs =>
    unfold tryArtifactsMessage specStratArtifacts
    simp only [jGet, jPath]
    cases h1 : kvs.lookup "artifacts" with
    | none => simp [trimmedNonEmpty]
    | some a =>
      cases a with
      | obj akvs =>
        simp only [jPath]
        cases h2 : akvs.lookup "message" with
        | none => simp [trimmedNonEmpty]
        | some v =>
          cases v with
          | str m =>
            simp only [jPath, trimmedNonEmpty]
            by_cases hm : pyStripS m = ""
            · simp [hm]
            · simp [hm]
          | null => simp [jPath, trimmedNonEmpty]
          | bool b => simp [jPath, trimmedNonEmpty]
          | num n => simp [jPath, trimmedNonEmpty]
          | arr xs => simp [jPath, trimmedNonEmpty]
          | obj kvs2 => simp [jPath, trimmedNonEmpty]
      | null => simp [trimmedNonEmpty]
      | bool b => simp [trimmedNonEmpty]
      | num n => simp [trimmedNonEmpty]
      | str s => simp [trimmedNonEmpty]
      | arr xs => simp [trimmedNonEmpty]
  | null => rfl
  | bool b => rfl
  | num n => rfl
  | str s => rfl
  | arr xs => rfl

theorem tryMessagesArray_eq (r : Json) :
    tryMessagesArray r = specStratMessages r := by
  cases r with
  | obj kvs =>
    unfold tryMessagesArray specStratMessages
    simp only [jGet, jPath]
    cases h1 : kvs.lookup "messages" with
    | none => simp
    | some v =>
      cases v with
      | arr xs =>
        cases xs with
        | nil => simp
        | cons first rest =>
          cases first with
          | obj fkvs =>
            simp only [jPath]
            cases h2 : fkvs.lookup "message" with
            | none => simp [trimmedNonEmpty]
            | some w =>
              cases w with
              | str m =>
                simp only [jPath, trimmedNonEmpty]
                by_cases hm : pyStripS m = ""
                · simp [hm]
                · simp [hm]
              | null => simp [jPath, trimmedNonEmpty]
              | bool b => simp [jPath, trimmedNonEmpty]
              | num n => simp [jPath, trimmedNonEmpty]
              | arr ys => simp [jPath, trimmedNonEmpty]
              | obj kvs2 => simp [jPath, trimmedNonEmpty]
          | null => simp [jPath, trimmedNonEmpty]
          | bool b => simp [jPath, trimmedNonEmpty]
          | num n => simp [jPath, trimmedNonEmpty]
          | str s => simp [jPath, trimmedNonEmpty]
          | arr ys => simp [jPath, trimmedNonEmpty]
      | null => simp
      | bool b => simp
      | num n => simp
      | str s => simp
      | obj kvs2 => simp
  | null => rfl
  | bool b => rfl
  | num n => rfl
  | str s => rfl
  | arr xs => rfl

theorem tryResultsMessageText_eq (r : Json) :
    tryResultsMessageText r = specStratResultsText r := by
  cases r with
  | obj kvs =>
    unfold tryResultsMessageText specStratResultsText
    simp only [jGet, jPath]
    cases h1 : kvs.lookup "results" with
    | none => simp [trimmedNonEmpty]
    | some v =>
      cases v with
      | obj rkvs =>
        simp only [jPath]
        cases h2 : rkvs.lookup "message" with
        | none => simp [trimmedNonEmpty]
        | some w =>
          cases w with
          | obj mkvs =>
            simp only [jPath]
            cases h3 : mkvs.lookup "text" with
            | none => simp [trimmedNonEmpty]
            | some u =>
              cases u with
              | str t =>
                simp only [jPath, trimmedNonEmpty]
                by_cases hm : pyStripS t = ""
                · simp [hm]
                · simp [hm]
              | null => simp [jPath, trimmedNonEmpty]
              | bool b => simp [jPath, trimmedNonEmpty]
              | num n => simp [jPath, trimmedNonEmpty]
              | arr ys => simp [jPath, trimmedNonEmpty]
              | obj kvs2 => simp [jPath, trimmedNonEmpty]
          | null => simp [jPath, trimmedNonEmpty]
          | bool b => simp [jPath, trimmedNonEmpty]
          | num n => simp [jPath, trimmedNonEmpty]
          | str s => simp [jPath, trimmedNonEmpty]
          | arr ys => simp [jPath, trimmedNonEmpty]
      | null => simp [trimmedNonEmpty]
      | bool b => simp [trimmedNonEmpty]
      | num n => simp [trimmedNonEmpty]
      | str s => simp [trimmedNonEmpty]
      | arr ys => simp [trimmedNonEmpty]
  | null => rfl
  | bool b => rfl
  | num n => rfl
  | str s => rfl
  | arr xs => rfl

theorem tryResultsMessageDataText_eq (r : Json) :
    tryResultsMessageDataText r = specStratResultsDataText r := by
  cases r with
  | obj kvs =>
    unfold tryResultsMessageDataText specStratResultsDataText
    simp only [jGet, jPath]
    cases h1 : kvs.lookup "results" with
    | none => simp [trimmedNonEmpty]
    | some v =>
      cases v with
      | obj rkvs =>
        simp only [jPath]
        cases h2 : rkvs.lookup "message" with
        | none => simp [trimmedNonEmpty]
        | some w =>
          cases w with
          | obj mkvs =>
            simp only [jPath]
            cases h3 : mkvs.lookup "data" with
            | none => simp [trimmedNonEmpty]
            | some d =>
              cases d with
              | obj dkvs =>
                simp only [jPath]
                cases h4 : dkvs.lookup "text" with
                | none => simp [trimmedNonEmpty]
                | some u =>
                  cases u with
                  | str t =>
                    simp only [jPath, trimmedNonEmpty]
                    by_cases hm : pyStripS t = ""
                    · simp [hm]
                    · simp [hm]
                  | null => simp [jPath, trimmedNonEmpty]
                  | bool b => simp [jPath, trimmedNonEmpty]
                  | num n => simp [jPath, trimmedNonEmpty]
                  | arr ys => simp [jPath, trimmedNonEmpty]
                  | obj kvs2 => simp [jPath, trimmedNonEmpty]
              | null => simp [jPath, trimmedNonEmpty]
              | bool b => simp [jPath, trimmedNonEmpty]
              | num n => simp [jPath, trimmedNonEmpty]
              | str s => simp [jPath, trimmedNonEmpty]
              | arr ys => simp [jPath, trimmedNonEmpty]
          | null => simp [jPath, trimmedNonEmpty]
          | bool b => simp [jPath, trimmedNonEmpty]
          | num n => simp [jPath, trimmedNonEmpty]
          | str s => simp [jPath, trimmedNonEmpty]
          | arr ys => simp [jPath, trimmedNonEmpty]
      | null => simp [trimmedNonEmpty]
      | bool b => simp [trimmedNonEmpty]
      | num n => simp [trimmedNonEmpty]
      | str s => simp [trimmedNonEmpty]
      | arr ys => simp [trimmedNonEmpty]
  | null => rfl
  | bool b => rfl
  | num n => rfl
  | str s => rfl
  | arr xs => rfl

theorem tryResultsMessageString_eq (r : Json) :
    tryResultsMessageString r = specStratResultsString r := by
  cases r with
  | obj kvs =>
    unfold tryResultsMessageString specStratResultsString
    simp only [jGet, jPath]
    cases h1 : kvs.lookup "results" with
    | none => simp [trimmedNonEmpty]
    | some v =>
      cases v with
      | obj rkvs =>
        simp only [jPath]
        cases h2 : rkvs.lookup "message" with
        | none => simp [trimmedNonEmpty]
        | some w =>
          cases w with
          | str m =>
            simp only [jPath, trimmedNonEmpty]
            by_cases hm : pyStripS m = ""
            · simp [hm]
            · simp [hm]
          | null => simp [jPath, trimmedNonEmpty]
          | bool b => simp [jPath, trimmedNonEmpty]
          | num n => simp [jPath, trimmedNonEmpty]
          | arr ys => simp [jPath, trimmedNonEmpty]
          | obj kvs2 => simp [jPath, trimmedNonEmpty]
      | null => simp [trimmedNonEmpty]
      | bool b => simp [trimmedNonEmpty]
      | num n => simp [trimmedNonEmpty]
      | str s => simp [trimmedNonEmpty]
      | arr ys => simp [trimmedNonEmpty]
  | null => rfl
  | bool b => rfl
  | num n => rfl
  | str s => rfl
  | arr xs => rfl

theorem extractFromResult_eq (result : Json) :
    extractFromResult result =
      (firstStrategy [specStratArtifacts, specStratMessages, specStratResultsText,
        specStratResultsDataText, specStratResultsString] result).getD "" := by
  cases result with
  | obj kvs =>
    unfold extractFromResult
    rw [tryArtifactsMessage_eq, tryMessagesArray_eq, tryResultsMessageText_eq,
        tryResultsMessageDataText_eq, tryResultsMessageString_eq]
    cases hs1 : specStratArtifacts (Json.obj kvs) with
    | some m => simp [firstStrategy, hs1]
    | none =>
      cases hs2 : specStratMessages (Json.obj kvs) with
      | some m => simp [firstStrategy, hs1, hs2]
      | none =>
        cases hs3 : specStratResultsText (Json.obj kvs) with
        | some m => simp [firstStrategy, hs1, hs2, hs3]
        | none =>
          cases hs4 : specStratResultsDataText (Json.obj kvs) with
          | some m => simp [firstStrategy, hs1, hs2, hs3, hs4]
          | none =>
            cases hs5 : specStratResultsString (Json.obj kvs) with
            | some m => simp [firstStrategy, hs1, hs2, hs3, hs4, hs5]
            | none => simp [firstStrategy, hs1, hs2, hs3, hs4, hs5]
  | null => rfl
  | bool b => rfl
  | num n => rfl
  | str s => rfl
  | arr xs => rfl

/-- Claim C3, counterexample: on a payload whose first "messages" entry has
both a "text" and a "message" field, the claim's literal strategy 2 (read the
entry's "text" field) yields "T", while `extract_message` returns "M" — the
code reads the "message" field. -/
theorem extract_strategy2_counterexample :
    specExtractClaim c3Payload = "T"
  ∧ extract_message c3Payload = "M"
  ∧ extract_message c3Payload ≠ specExtractClaim c3Payload :=
  ⟨rfl, rfl, by decide⟩

/-- Claim C3 as amended: `extract_message` equals, on every payload, the
spec-shaped extractor that unwraps the two outer "outputs" arrays and returns
the first non-empty whitespace-trimmed match of the five strategies in order —
with strategy 2 reading the first "messages" entry's "message" field — and
the empty string when the wrappers are missing or no strategy matches; being a
total function, it never raises. -/
theorem extract_message_eq_spec (response : Json) :
    extract_message response = specExtractAmended response := by
  cases response with
  | obj kvs =>
    unfold extract_message specExtractAmended specExtractWith
    simp only [jGetD]
    cases h1 : kvs.lookup "outputs" with
    | none => simp [jFalsy]
    | some outputs =>
      cases outputs with
      | arr xs =>
        cases xs with
        | nil => simp [jFalsy]
        | cons o0 rest =>
          simp only [Option.getD, jFalsy, List.isEmpty, Bool.false_eq_true, if_neg, jIndex0]
          cases o0 with
          | obj okvs =>
            simp only [jGetD]
            cases h2 : okvs.lookup "outputs" with
            | none => simp [jFalsy]
            | some inner =>
              cases inner with
              | arr ys =>
                cases ys with
                | nil => simp [jFalsy]
                | cons result rest2 =>
                  simp only [Option.getD, jFalsy, List.isEmpty, Bool.false_eq_true, if_neg,
                    jIndex0]
                  exact extractFromResult_eq result
              | null => simp [jFalsy]
              | bool b => cases b <;> simp [jFalsy, jIndex0]
              | num n => by_cases hn : n = 0 <;> simp [jFalsy, hn, jIndex0]
              | str s => cases hs : s.isEmpty <;> simp [jFalsy, hs, jIndex0]
              | obj kvs2 => cases kvs2 <;> simp [jFalsy, jIndex0]
          | null => rfl
          | bool b => rfl
          | num n => rfl
          | str s => rfl
          | arr ys => rfl
      | null => simp [jFalsy]
      | bool b => cases b <;> simp [jFalsy, jIndex0]
      | num n => by_cases hn : n = 0 <;> simp [jFalsy, hn, jIndex0]
      | str s => cases hs : s.isEmpty <;> simp [jFalsy, hs, jIndex0]
      | obj kvs2 => cases kvs2 <;> simp [jFalsy, jIndex0]
  | null => rfl
  | bool b => rfl
  | num n => rfl
  | str s => rfl
  | arr xs => rfl

theorem chunkLoop_zero (m : Nat) (remaining : List Char) :
    chunkLoop m 0 remaining = [] := rfl

theorem chunkLoop_succ (m fuel : Nat) (remaining : List Char) :
    chunkLoop m (fuel + 1) remaining =
      if remaining.isEmpty then []
      else if remaining.length ≤ m then [remaining]
      else
        rstripL (remaining.take (splitPoint remaining m)) ::
          chunkLoop m fuel (lstripL (remaining.drop (splitPoint remaining m))) := rfl

theorem rfindFrom_eq_some (sub s : List Char) (i j : Nat)
    (h : rfindFrom sub s i = some j) : j ≤ i ∧ sub.isPrefixOf (s.drop j) = true := by
  induction i with
  | zero =>
    unfold rfindFrom at h
    by_cases hp : sub.isPrefixOf s = true
    · rw [if_pos hp] at h
      injection h with h
      subst h
      exact ⟨Nat.le_refl 0, hp⟩
    · rw [if_neg hp] at h
      exact absurd h (by simp)
  | succ i ih =>
    unfold rfindFrom at h
    by_cases hp : sub.isPrefixOf (s.drop (i + 1)) = true
    · rw [if_pos hp] at h
      injection h with h
      subst h
      exact ⟨Nat.le_refl _, hp⟩
    · rw [if_neg hp] at h
      rcases ih h with ⟨h1, h2⟩
      exact ⟨Nat.le_trans h1 (Nat.le_succ i), h2⟩

theorem rfindIn_eq_some (sub s : List Char) (e j : Nat) (h : rfindIn sub s e = some j) :
    j + sub.length ≤ min e s.length ∧ sub.isPrefixOf (s.drop j) = true := by
  simp only [rfindIn] at h
  by_cases hle : sub.length ≤ min e s.length
  · rw [if_pos hle] at h
    rcases rfindFrom_eq_some sub s _ j h with ⟨h1, h2⟩
    exact ⟨by omega, h2⟩
  · rw [if_neg hle] at h
    exact absurd h (by simp)

theorem splitPoint_le (remaining : List Char) (m : Nat) : splitPoint remaining m ≤ m := by
  unfold splitPoint
  cases h1 : rfindIn ['\n', '\n'] remaining m with
  | some i =>
    have h := (rfindIn_eq_some _ _ _ _ h1).1
    simp only
    have h2 : min m remaining.length ≤ m := Nat.min_le_left _ _
    simp at h
    omega
  | none =>
    cases h2 : rfindIn ['\n'] remaining m with
    | some i =>
      have h := (rfindIn_eq_some _ _ _ _ h2).1
      simp only
      have h3 : min m remaining.length ≤ m := Nat.min_le_left _ _
      simp at h
      omega
    | none =>
      cases h3 : rfindIn [' '] remaining m with
      | some i =>
        have h := (rfindIn_eq_some _ _ _ _ h3).1
        simp only
        have h4 : min m remaining.length ≤ m := Nat.min_le_left _ _
        simp at h
        omega
      | none => exact Nat.le_refl m

theorem cons_of_isPrefixOf_cons (c : Char) (cs l : List Char)
    (h : (c :: cs).isPrefixOf l = true) : ∃ t, l = c :: t := by
  cases l with
  | nil => simp [List.isPrefixOf] at h
  | cons b bs =>
    simp only [List.isPrefixOf, Bool.and_eq_true, beq_iff_eq] at h
    exact ⟨bs, by rw [h.1]⟩

theorem splitPoint_cases (remaining : List Char) (m : Nat) :
    splitPoint remaining m = m ∨
    ∃ c t, remaining.drop (splitPoint remaining m) = c :: t ∧ pyIsSpace c = true := by
  unfold splitPoint
  cases h1 : rfindIn ['\n', '\n'] remaining m with
  | some i =>
    right
    have h := (rfindIn_eq_some _ _ _ _ h1).2
    rcases cons_of_isPrefixOf_cons '\n' _ _ h with ⟨t, ht⟩
    exact ⟨'\n', t, ht, by decide⟩
  | none =>
    cases h2 : rfindIn ['\n'] remaining m with
    | some i =>
      right
      have h := (rfindIn_eq_some _ _ _ _ h2).2
      rcases cons_of_isPrefixOf_cons '\n' _ _ h with ⟨t, ht⟩
      exact ⟨'\n', t, ht, by decide⟩
    | none =>
      cases h3 : rfindIn [' '] remaining m with
      | some i =>
        right
        have h := (rfindIn_eq_some _ _ _ _ h3).2
        rcases cons_of_isPrefixOf_cons ' ' _ _ h with ⟨t, ht⟩
        exact ⟨' ', t, ht, by decide⟩
      | none => exact Or.inl rfl

theorem lstripL_length_le (s : List Char) : (lstripL s).length ≤ s.length :=
  (List.dropWhile_suffix pyIsSpace).length_le

theorem rstripL_length_le (s : List Char) : (rstripL s).length ≤ s.length := by
  unfold rstripL
  rw [List.length_reverse]
  calc (lstripL s.reverse).length ≤ s.reverse.length := lstripL_length_le s.reverse
  _ = s.length := List.length_reverse s

theorem lstripL_cons_of_space (c : Char) (t : List Char) (h : pyIsSpace c = true) :
    lstripL (c :: t) = lstripL t := by
  simp [lstripL, List.dropWhile_cons, h]

theorem lstrip_drop_splitPoint_lt (remaining : List Char) (m : Nat)
    (hm : 1 ≤ m) (hlen : m < remaining.length) :
    (lstripL (remaining.drop (splitPoint remaining m))).length < remaining.length := by
  rcases splitPoint_cases remaining m with h | ⟨c, t, hdrop, hws⟩
  · rw [h]
    have h1 : (remaining.drop m).length = remaining.length - m := List.length_drop m remaining
    have h2 := lstripL_length_le (remaining.drop m)
    omega
  · rw [hdrop, lstripL_cons_of_space c t hws]
    have h1 := congrArg List.length hdrop
    rw [List.length_drop] at h1
    simp only [List.length_cons] at h1
    have h2 := lstripL_length_le t
    have h3 := splitPoint_le remaining m
    omega

theorem chunkLoop_fuel_stable (m : Nat) (hm : 1 ≤ m) :
    ∀ f1 f2 remaining, remaining.length ≤ f1 → remaining.length ≤ f2 →
      chunkLoop m f1 remaining = chunkLoop m f2 remaining := by
  intro f1
  induction f1 with
  | zero =>
    intro f2 remaining h1 h2
    have hnil : remaining = [] := List.eq_nil_of_length_eq_zero (Nat.le_zero.mp h1)
    subst hnil
    cases f2 with
    | zero => rfl
    | succ g => rfl
  | succ k ih =>
    intro f2 remaining h1 h2
    cases f2 with
    | zero =>
      have hnil : remaining = [] := List.eq_nil_of_length_eq_zero (Nat.le_zero.mp h2)
      subst hnil
      rfl
    | succ g =>
      rw [chunkLoop_succ, chunkLoop_succ]
      by_cases he : remaining.isEmpty = true
      · rw [if_pos he, if_pos he]
      · rw [if_neg he, if_neg he]
        by_cases hle : remaining.length ≤ m
        · rw [if_pos hle, if_pos hle]
        · rw [if_neg hle, if_neg hle]
          have hdec := lstrip_drop_splitPoint_lt remaining m hm (Nat.lt_of_not_le hle)
          rw [ih g (lstripL (remaining.drop (splitPoint remaining m))) (by omega) (by omega)]

theorem lstripL_decomp (s : List Char) :
    ∃ w, (∀ x ∈ w, pyIsSpace x = true) ∧ s = w ++ lstripL s :=
  ⟨s.takeWhile pyIsSpace, fun _ hx => List.mem_takeWhile_imp hx,
   (List.takeWhile_append_dropWhile pyIsSpace s).symm⟩

theorem rstripL_decomp (s : List Char) :
    ∃ w, (∀ x ∈ w, pyIsSpace x = true) ∧ s = rstripL s ++ w := by
  rcases lstripL_decomp s.reverse with ⟨w, hw, he⟩
  refine ⟨w.reverse, fun x hx => hw x (List.mem_reverse.mp hx), ?_⟩
  have h2 := congrArg List.reverse he
  rw [List.reverse_reverse, List.reverse_append] at h2
  exact h2

theorem chunkLoop_spec (m : Nat) (hm : 1 ≤ m) :
    ∀ fuel remaining, remaining.length ≤ fuel →
      (∀ c ∈ chunkLoop m fuel remaining, c.length ≤ m)
    ∧ ReJoins (chunkLoop m fuel remaining) remaining := by
  intro fuel
  induction fuel with
  | zero =>
    intro remaining h
    have hnil : remaining = [] := List.eq_nil_of_length_eq_zero (Nat.le_zero.mp h)
    subst hnil
    rw [chunkLoop_zero]
    exact ⟨by simp, rfl⟩
  | succ k ih =>
    intro remaining h
    rw [chunkLoop_succ]
    by_cases he : remaining.isEmpty = true
    · rw [if_pos he]
      have hnil : remaining = [] := by
        cases remaining with
        | nil => rfl
        | cons a t => simp [List.isEmpty] at he
      subst hnil
      exact ⟨by simp, rfl⟩
    · rw [if_neg he]
      by_cases hle : remaining.length ≤ m
      · rw [if_pos hle]
        refine ⟨?_, ⟨[], [], by simp, by simp, rfl⟩⟩
        intro c hc
        have : c = remaining := by simpa using hc
        rw [this]
        exact hle
      · rw [if_neg hle]
        have hdec := lstrip_drop_splitPoint_lt remaining m hm (Nat.lt_of_not_le hle)
        rcases ih (lstripL (remaining.drop (splitPoint remaining m))) (by omega) with ⟨ihlen, ihjoin⟩
        constructor
        · intro c hc
          rcases List.mem_cons.mp hc with hc1 | hc2
          · rw [hc1]
            calc (rstripL (remaining.take (splitPoint remaining m))).length
                ≤ (remaining.take (splitPoint remaining m)).length :=
                  rstripL_length_le _
            _ ≤ splitPoint remaining m := by
                  rw [List.length_take]
                  exact Nat.min_le_left _ _
            _ ≤ m := splitPoint_le remaining m
          · exact ihlen c hc2
        · rcases rstripL_decomp (remaining.take (splitPoint remaining m)) with ⟨w1, hw1, he1⟩
          rcases lstripL_decomp (remaining.drop (splitPoint remaining m)) with ⟨w2, hw2, he2⟩
          refine ⟨w1 ++ w2, lstripL (remaining.drop (splitPoint remaining m)), ?_, ?_, ihjoin⟩
          · intro x hx
            rcases List.mem_append.mp hx with h1 | h2
            · exact hw1 x h1
            · exact hw2 x h2
          · calc remaining
                = remaining.take (splitPoint remaining m)
                    ++ remaining.drop (splitPoint remaining m) :=
                  (List.take_append_drop _ remaining).symm
            _ = (rstripL (remaining.take (splitPoint remaining m)) ++ w1)
                  ++ (w2 ++ lstripL (remaining.drop (splitPoint remaining m))) := by
                  rw [← he1, ← he2]
            _ = rstripL (remaining.take (splitPoint remaining m))
                  ++ ((w1 ++ w2) ++ lstripL (remaining.drop (splitPoint remaining m))) := by
                  simp [List.append_assoc]

/-- Claim C10: for every positive maximum length the chunking loop of
`format_for_slack` terminates — each iteration strictly shortens the remaining
text (a boundary split point leaves the remainder starting with whitespace,
which the left-strip removes; a hard cut advances by the maximum length), so
any fuel of at least the message length computes the same, total, result. -/
theorem chunking_terminates (m : Nat) (hm : 1 ≤ m) :
    (∀ remaining : List Char, m < remaining.length →
        (lstripL (remaining.drop (splitPoint remaining m))).length < remaining.length)
  ∧ (∀ (fuel : Nat) (message : List Char), message.length ≤ fuel →
        chunkLoop m fuel message = chunkLoop m message.length message) := by
  constructor
  · intro remaining hlen
    exact lstrip_drop_splitPoint_lt remaining m hm hlen
  · intro fuel message h
    exact chunkLoop_fuel_stable m hm fuel message.length message h (Nat.le_refl _)

/-- Concrete instance of `chunking_terminates`. -/
theorem chunking_terminates_witness :
    (lstripL ((['a', 'b', 'c'] : List Char).drop (splitPoint ['a', 'b', 'c'] 1))).length < 3
  ∧ chunkLoop 1 5 ['a', 'b'] = chunkLoop 1 2 ['a', 'b'] :=
  ⟨(chunking_terminates 1 (by decide)).1 ['a', 'b', 'c'] (by decide),
   (chunking_terminates 1 (by decide)).2 5 ['a', 'b'] (by decide)⟩

/-- Claim C1, counterexample: `format_for_slack "\n\naaaa"` with maximum 3
contains an empty chunk (the double-newline boundary is found at index 0 and
the prefix strips to nothing), refuting "no chunk is empty"; and a short text
with leading whitespace is returned untouched, so the joined chunks equal the
original, not the trimmed original. -/
theorem format_for_slack_claim_counterexample :
    [] ∈ format_for_slack ['\n', '\n', 'a', 'a', 'a', 'a'] 3
  ∧ format_for_slack [' ', 'a'] 3900 = [[' ', 'a']]
  ∧ pyStrip [' ', 'a'] ≠ [' ', 'a'] :=
  ⟨by decide, rfl, by decide⟩

/-- Claim C1 as amended: for any positive maximum length, `format_for_slack`
returns chunks of length at most the maximum; interleaving the chunks with the
whitespace runs dropped at the chunk boundaries (one run after each chunk,
possibly empty) reconstructs the original text exactly; the empty text yields
no chunks; a non-empty text of length at most the maximum is returned
untouched as a single chunk. Chunks can be empty when a boundary falls at
position zero or a prefix is entirely whitespace. -/
theorem format_for_slack_spec (m : Nat) (hm : 1 ≤ m) (message : List Char) :
    (message = [] → format_for_slack message m = [])
  ∧ (message ≠ [] → message.length ≤ m → format_for_slack message m = [message])
  ∧ (∀ c ∈ format_for_slack message m, c.length ≤ m)
  ∧ ReJoins (format_for_slack message m) message := by
  by_cases he : message.isEmpty = true
  · have hnil : message = [] := by
      cases message with
      | nil => rfl
      | cons a t => simp [List.isEmpty] at he
    subst hnil
    exact ⟨fun _ => rfl, fun hne _ => absurd rfl hne, by simp [format_for_slack], rfl⟩
  · unfold format_for_slack
    rw [if_neg he]
    have hne : message ≠ [] := by
      intro hc
      subst hc
      simp [List.isEmpty] at he
    by_cases hle : message.length ≤ m
    · rw [if_pos hle]
      refine ⟨fun hc => absurd hc hne, fun _ _ => rfl, ?_, ⟨[], [], by simp, by simp, rfl⟩⟩
      intro c hc
      have : c = message := by simpa using hc
      rw [this]
      exact hle
    · rw [if_neg hle]
      rcases chunkLoop_spec m hm message.length message (Nat.le_refl _) with ⟨h1, h2⟩
      exact ⟨fun hc => absurd hc hne, fun _ hc => absurd hc hle, h1, h2⟩

/-- Concrete instance of `format_for_slack_spec`. -/
theorem format_for_slack_spec_witness :
    ((['h', 'i'] : List Char) = [] → format_for_slack ['h', 'i'] 1 = [])
  ∧ ((['h', 'i'] : List Char) ≠ [] → (['h', 'i'] : List Char).length ≤ 1 →
      format_for_slack ['h', 'i'] 1 = [['h', 'i']])
  ∧ (∀ c ∈ format_for_slack ['h', 'i'] 1, c.length ≤ 1)
  ∧ ReJoins (format_for_slack ['h', 'i'] 1) ['h', 'i'] :=
  format_for_slack_spec 1 (by decide) ['h', 'i']

theorem runFlowGo_zero (backend : Nat → PostOutcome) (maxRetries attempt : Nat)
    (le : Option RunError) :
    runFlowGo backend maxRetries attempt 0 le =
      (Except.error (le.getD RunError.unknown), 0, []) := rfl

theorem runFlowGo_succ (backend : Nat → PostOutcome) (maxRetries attempt left : Nat)
    (le : Option RunError) :
    runFlowGo backend maxRetries attempt (left + 1) le =
      match backend attempt with
      | .resp status body text =>
        if status = 200 then (Except.ok body, 1, [])
        else if 400 ≤ status ∧ status < 500 then
          (Except.error (.apiError status text), 1, [])
        else
          let r := runFlowGo backend maxRetries (attempt + 1) left (some (.apiError status text))
          (r.1, r.2.1 + 1, if attempt < maxRetries then 2 ^ attempt :: r.2.2 else r.2.2)
      | .timeoutExc =>
        let r := runFlowGo backend maxRetries (attempt + 1) left (some .timeoutError)
        (r.1, r.2.1 + 1, if attempt < maxRetries then 2 ^ attempt :: r.2.2 else r.2.2)
      | .requestExc m =>
        let r := runFlowGo backend maxRetries (attempt + 1) left (some (.requestFailed m))
        (r.1, r.2.1 + 1, if attempt < maxRetries then 2 ^ attempt :: r.2.2 else r.2.2) := rfl

theorem runFlowGo_succ_resp (backend : Nat → PostOutcome) (maxRetries attempt left : Nat)
    (le : Option RunError) (status : Nat) (body : Json) (text : String)
    (hba : backend attempt = .resp status body text) :
    runFlowGo backend maxRetries attempt (left + 1) le =
      (if status = 200 then (Except.ok body, 1, [])
       else if 400 ≤ status ∧ status < 500 then
         (Except.error (.apiError status text), 1, [])
       else
         let r := runFlowGo backend maxRetries (attempt + 1) left (some (.apiError status text))
         (r.1, r.2.1 + 1, if attempt < maxRetries then 2 ^ attempt :: r.2.2 else r.2.2)) := by
  rw [runFlowGo_succ, hba]

theorem runFlowGo_succ_timeout (backend : Nat → PostOutcome) (maxRetries attempt left : Nat)
    (le : Option RunError) (hba : backend attempt = .timeoutExc) :
    runFlowGo backend maxRetries attempt (left + 1) le =
      (let r := runFlowGo backend maxRetries (attempt + 1) left (some .timeoutError)
       (r.1, r.2.1 + 1, if attempt < maxRetries then 2 ^ attempt :: r.2.2 else r.2.2)) := by
  rw [runFlowGo_succ, hba]

theorem runFlowGo_succ_request (backend : Nat → PostOutcome) (maxRetries attempt left : Nat)
    (le : Option RunError) (m : String) (hba : backend attempt = .requestExc m) :
    runFlowGo backend maxRetries attempt (left + 1) le =
      (let r := runFlowGo backend maxRetries (attempt + 1) left (some (.requestFailed m))
       (r.1, r.2.1 + 1, if attempt < maxRetries then 2 ^ attempt :: r.2.2 else r.2.2)) := by
  rw [runFlowGo_succ, hba]

theorem runFlowGo_all_retryable (backend : Nat → PostOutcome) (maxRetries : Nat)
    (err : Nat → RunError) (hb : ∀ i, stepRetryErr (backend i) = some (err i)) :
    ∀ l attempt le, attempt + l = maxRetries →
      runFlowGo backend maxRetries attempt (l + 1) le =
        (Except.error (err maxRetries), l + 1,
         (List.range' attempt (maxRetries - attempt)).map (fun i => 2 ^ i)) := by
  intro l
  induction l with
  | zero =>
    intro attempt le ha
    have haeq : attempt = maxRetries := by omega
    subst haeq
    cases hba : backend attempt with
    | resp status body text =>
      have h2 := hb attempt
      rw [hba] at h2
      simp only [stepRetryErr] at h2
      by_cases h200 : status = 200
      · rw [if_pos h200] at h2
        exact absurd h2 (by simp)
      · rw [if_neg h200] at h2
        by_cases h4 : 400 ≤ status ∧ status < 500
        · rw [if_pos h4] at h2
          exact absurd h2 (by simp)
        · rw [if_neg h4] at h2
          have he : err attempt = RunError.apiError status text := by
            injection h2 with h2a
            exact h2a.symm
          rw [runFlowGo_succ_resp backend attempt attempt 0 le status body text hba]
          rw [if_neg h200, if_neg h4, runFlowGo_zero]
          simp [he, Nat.sub_self, Nat.lt_irrefl, List.range']
    | timeoutExc =>
      have h2 := hb attempt
      rw [hba] at h2
      simp only [stepRetryErr] at h2
      have he : err attempt = RunError.timeoutError := by
        injection h2 with h2a
        exact h2a.symm
      rw [runFlowGo_succ_timeout backend attempt attempt 0 le hba, runFlowGo_zero]
      simp [he, Nat.sub_self, Nat.lt_irrefl, List.range']
    | requestExc m =>
      have h2 := hb attempt
      rw [hba] at h2
      simp only [stepRetryErr] at h2
      have he : err attempt = RunError.requestFailed m := by
        injection h2 with h2a
        exact h2a.symm
      rw [runFlowGo_succ_request backend attempt attempt 0 le m hba, runFlowGo_zero]
      simp [he, Nat.sub_self, Nat.lt_irrefl, List.range']
  | succ k ih =>
    intro attempt le ha
    have hlt : attempt < maxRetries := by omega
    have hsub : maxRetries - attempt = k + 1 := by omega
    have hsub2 : maxRetries - (attempt + 1) = k := by omega
    have hrange : (List.range' attempt (maxRetries - attempt)).map (fun i => 2 ^ i)
        = 2 ^ attempt :: (List.range' (attempt + 1) (maxRetries - (attempt + 1))).map
            (fun i => 2 ^ i) := by
      rw [hsub, hsub2, List.range']
      simp
    cases hba : backend attempt with
    | resp status body text =>
      have h2 := hb attempt
      rw [hba] at h2
      simp only [stepRetryErr] at h2
      by_cases h200 : status = 200
      · rw [if_pos h200] at h2
        exact absurd h2 (by simp)
      · rw [if_neg h200] at h2
        by_cases h4 : 400 ≤ status ∧ status < 500
        · rw [if_pos h4] at h2
          exact absurd h2 (by simp)
        · rw [if_neg h4] at h2
          rw [runFlowGo_succ_resp backend maxRetries attempt (k + 1) le status body text hba]
          rw [if_neg h200, if_neg h4,
              ih (attempt + 1) (some (.apiError status text)) (by omega)]
          rw [hrange]
          simp [hlt]
    | timeoutExc =>
      rw [runFlowGo_succ_timeout backend maxRetries attempt (k + 1) le hba,
          ih (attempt + 1) (some .timeoutError) (by omega)]
      rw [hrange]
      simp [hlt]
    | requestExc m =>
      rw [runFlowGo_succ_request backend maxRetries attempt (k + 1) le m hba,
          ih (attempt + 1) (some (.requestFailed m)) (by omega)]
      rw [hrange]
      simp [hlt]

/-- Claim C2, counterexample: a backend answering 301 on every call — neither
a 5xx nor a connect/timeout error — is nevertheless retried: with
`max_retries = 1` it is attempted twice (with one backoff sleep), where the
claim's "retries only on a 5xx response or a connect/timeout error" predicts a
single attempt. -/
theorem run_flow_retries_non5xx_counterexample :
    run_flow (fun _ => PostOutcome.resp 301 Json.null "moved") 1 =
      (Except.error (RunError.apiError 301 "moved"), 2, [1]) := rfl

/-- Claim C2 as amended: `run_flow` retries on any response with a status
other than 200 that is not a 4xx (this includes 5xx but also 1xx, non-200 2xx
and 3xx), and on timeout or transport exceptions, sleeping `2 ^ attempt`
seconds between attempts; when every attempt fails retryably the call makes
exactly `maxRetries + 1` attempts and surfaces the last observed error; a 4xx
response fails on the first attempt with no retry and no sleep. A 503
response, a timeout and a transport error are all classified retryable. -/
theorem run_flow_retry_policy (maxRetries : Nat) :
    (∀ (backend : Nat → PostOutcome) (err : Nat → RunError),
        (∀ i, stepRetryErr (backend i) = some (err i)) →
        run_flow backend maxRetries =
          (Except.error (err maxRetries), maxRetries + 1,
           (List.range maxRetries).map (fun i => 2 ^ i)))
  ∧ (∀ (backend : Nat → PostOutcome) (status : Nat) (body : Json) (text : String),
        backend 0 = PostOutcome.resp status body text →
        400 ≤ status → status < 500 →
        run_flow backend maxRetries = (Except.error (.apiError status text), 1, []))
  ∧ (∀ (body : Json) (text : String),
        stepRetryErr (.resp 503 body text) = some (.apiError 503 text))
  ∧ stepRetryErr .timeoutExc = some .timeoutError
  ∧ (∀ m, stepRetryErr (.requestExc m) = some (.requestFailed m)) := by
  refine ⟨?_, ?_, fun body text => rfl, rfl, fun m => rfl⟩
  · intro backend err hb
    unfold run_flow
    rw [runFlowGo_all_retryable backend maxRetries err hb maxRetries 0 none (by omega)]
    rw [List.range_eq_range']
    simp
  · intro backend status body text hb h4a h4b
    unfold run_flow
    rw [runFlowGo_succ_resp backend maxRetries 0 maxRetries none status body text hb]
    rw [if_neg (by omega : ¬ status = 200), if_pos ⟨h4a, h4b⟩]

/-- Concrete instance of `run_flow_retry_policy`: an always-503 backend is
attempted `1 + 2` times with sleeps 1 and 2 seconds; a 404 backend is
attempted once. -/
theorem run_flow_retry_policy_witness :
    run_flow (fun _ => PostOutcome.resp 503 Json.null "boom") 2 =
      (Except.error (RunError.apiError 503 "boom"), 3, [1, 2])
  ∧ run_flow (fun _ => PostOutcome.resp 404 Json.null "missing") 2 =
      (Except.error (RunError.apiError 404 "missing"), 1, []) := by
  constructor
  · have h := (run_flow_retry_policy 2).1 (fun _ => PostOutcome.resp 503 Json.null "boom")
      (fun _ => RunError.apiError 503 "boom") (fun i => rfl)
    rw [h]
    rfl
  · exact (run_flow_retry_policy 2).2.1 (fun _ => PostOutcome.resp 404 Json.null "missing")
      404 Json.null "missing" rfl (by omega) (by omega)

/-- Claim C6: every event that enters processing has its message key in the
in-flight admission set before the body runs, and after completion — whether
the body succeeded or raised — the key is no longer in the admission set and
is recorded in the replay-suppression map stamped with the completion time. -/
theorem admission_guard_cleanup (st : HandlerState) (key : String)
    (body : HandlerState → HandlerState × ProcOutcome) (completionTime : Nat) :
    (add_processing st key).processing.contains key = true
  ∧ (handle_guarded st key body completionTime).processing.contains key = false
  ∧ (handle_guarded st key body completionTime).processed_messages.lookup key
      = some completionTime := by
  refine ⟨?_, ?_, ?_⟩
  · simp only [add_processing]
    split
    · rename_i h
      exact h
    · simp [List.contains_cons]
  · unfold handle_guarded
    exact contains_filter_bne_self _ key
  · unfold handle_guarded
    simp [List.lookup]

/-- Claim C4: when a thread's session already exists, `get_or_create_session`
ignores the proposed flow name and returns the stored binding unchanged (the
session token, the bound flow and `is_new = false`), and the stored row keeps
its flow binding (only `updated_at` is refreshed). -/
theorem session_flow_immutable_on_hit (s : SessionStore) (channel_id thread_ts : String)
    (row : SessionRow) (proposed : Option String) (freshId : String) (now : Nat)
    (h : s.lookup (make_thread_key channel_id thread_ts) = some row) :
    ∃ s1 : SessionStore,
      get_or_create_session s channel_id thread_ts freshId proposed now =
        Except.ok (s1, ⟨row.session_id, row.flow_name, false⟩)
    ∧ s1.lookup (make_thread_key channel_id thread_ts) = some { row with updated_at := now } := by
  refine ⟨s.map (fun kv =>
      if kv.1 = make_thread_key channel_id thread_ts then
        (kv.1, { kv.2 with updated_at := now }) else kv), ?_, ?_⟩
  · simp only [get_or_create_session, get_session, h]
  · exact lookup_map_refresh s _ (fun r => { r with updated_at := now }) row h

/-- Concrete instance of `session_flow_immutable_on_hit`: a thread bound to
flow "A" keeps that binding when "B" is proposed. -/
theorem session_flow_immutable_on_hit_witness :
    ∃ s1 : SessionStore,
      get_or_create_session [("C:100", ⟨"sess-1", some "A", 1, 1⟩)] "C" "100" "fresh"
          (some "B") 9 =
        Except.ok (s1, ⟨"sess-1", some "A", false⟩)
    ∧ s1.lookup (make_thread_key "C" "100") = some ⟨"sess-1", some "A", 1, 9⟩ :=
  session_flow_immutable_on_hit [("C:100", ⟨"sess-1", some "A", 1, 1⟩)] "C" "100"
    ⟨"sess-1", some "A", 1, 1⟩ (some "B") "fresh" 9 rfl

/-- Claim C9, counterexample: when another task inserts the same thread key
between the lookup and the INSERT, the unique-key `IntegrityError` propagates
out of `get_or_create_session` — there is no internal re-read returning the
winner's record. -/
theorem get_or_create_race_counterexample :
    get_or_create_session_raced []
      (fun s => s ++ [(make_thread_key "C" "1", ⟨"winner", some "A", 5, 5⟩)])
      "C" "1" "fresh" (some "B") 7 = Except.error () := rfl

/-- Claim C9 as amended: when a concurrent insert of the same thread key lands
between the lookup and the creation attempt, the duplicate-key error is
surfaced to the caller of `get_or_create_session` (it is caught only by the
handler's generic exception handler). -/
theorem get_or_create_duplicate_key_error_surfaced (s : SessionStore)
    (interfere : SessionStore → SessionStore) (channel_id thread_ts freshId : String)
    (flow_name : Option String) (now : Nat)
    (h0 : (get_session s channel_id thread_ts now).2 = none)
    (h1 : ((interfere (get_session s channel_id thread_ts now).1).lookup
            (make_thread_key channel_id thread_ts)).isSome = true) :
    get_or_create_session_raced s interfere channel_id thread_ts freshId flow_name now =
      Except.error () := by
  unfold get_or_create_session_raced
  rcases hgs : get_session s channel_id thread_ts now with ⟨s1, o⟩
  rw [hgs] at h0 h1
  simp only at h0 h1
  subst h0
  simp only [create_session, h1, if_pos]

/-- Concrete instance of `get_or_create_duplicate_key_error_surfaced`. -/
theorem get_or_create_duplicate_key_error_surfaced_witness :
    get_or_create_session_raced []
      (fun s => s ++ [(make_thread_key "D" "2", ⟨"w", none, 1, 1⟩)])
      "D" "2" "f" none 3 = Except.error () :=
  get_or_create_duplicate_key_error_surfaced []
    (fun s => s ++ [(make_thread_key "D" "2", ⟨"w", none, 1, 1⟩)]) "D" "2" "f" none 3
    (by rfl) (by rfl)

/-- Claim C8, counterexample: with flow "A" deleted and the channel resolving
to flow "B", a session still bound to "A" is silently sent through "B" — the
missing flow is not treated as an error at send time. -/
theorem send_flow_fallback_counterexample :
    get_flow ⟨[⟨"B", "u", "fid", "k", none, 0, true⟩], []⟩ "A" = none
  ∧ choose_send_flow ⟨[⟨"B", "u", "fid", "k", none, 0, true⟩], []⟩
      ⟨"B", "u", "fid", "k", none, true⟩ (some "A") = ⟨"B", "u", "fid", "k", none, true⟩ :=
  ⟨rfl, rfl⟩

/-- Claim C8 as amended: removing a flow leaves the session store untouched
(sessions keep their bound flow name), and at send time a session flow that
still resolves wins over the channel's current resolution, while a session
flow that no longer resolves is silently ignored in favour of the channel's
current flow — no error is raised. -/
theorem session_flow_after_removal (db : FlowsDb) (sessions : SessionStore) (name : String)
    (channelFlow : FlowConfig) (fnA fnB : String) (orig : FlowConfig)
    (hA0 : fnA ≠ "") (hA1 : fnA ≠ channelFlow.name) (hA2 : get_flow db fnA = some orig)
    (hB : get_flow db fnB = none) :
    (sys_remove_flow db sessions name).1.2 = sessions
  ∧ choose_send_flow db channelFlow (some fnA) = orig
  ∧ choose_send_flow db channelFlow (some fnB) = channelFlow := by
  refine ⟨rfl, ?_, ?_⟩
  · simp [choose_send_flow, hA0, hA1, hA2]
  · by_cases h : fnB ≠ "" ∧ fnB ≠ channelFlow.name
    · simp [choose_send_flow, h, hB]
    · simp [choose_send_flow, h]

/-- Concrete instance of `session_flow_after_removal`. -/
theorem session_flow_after_removal_witness :
    (sys_remove_flow ⟨[⟨"A", "u", "f", "k", none, 0, false⟩], []⟩
        [("C:1", ⟨"s", some "A", 0, 0⟩)] "X").1.2 = [("C:1", ⟨"s", some "A", 0, 0⟩)]
  ∧ choose_send_flow ⟨[⟨"A", "u", "f", "k", none, 0, false⟩], []⟩
      ⟨"B", "u", "f", "k", none, true⟩ (some "A") = ⟨"A", "u", "f", "k", none, false⟩
  ∧ choose_send_flow ⟨[⟨"A", "u", "f", "k", none, 0, false⟩], []⟩
      ⟨"B", "u", "f", "k", none, true⟩ (some "ghost") = ⟨"B", "u", "f", "k", none, true⟩ :=
  session_flow_after_removal ⟨[⟨"A", "u", "f", "k", none, 0, false⟩], []⟩
    [("C:1", ⟨"s", some "A", 0, 0⟩)] "X" ⟨"B", "u", "f", "k", none, true⟩ "A" "ghost"
    ⟨"A", "u", "f", "k", none, false⟩ (by decide) (by decide) rfl rfl

/-- Claim C7, counterexample: a channel bound to a flow name that no longer
resolves yields `none` from `get_channel_flow` even though a default flow
exists — the code does not fall back to the default in that case. -/
theorem channel_flow_dangling_counterexample :
    get_channel_flow ⟨[⟨"d", "u", "fid", "k", none, 0, true⟩], [("C1", "ghost")]⟩ "C1" = none
  ∧ (get_default_flow ⟨[⟨"d", "u", "fid", "k", none, 0, true⟩], [("C1", "ghost")]⟩).isSome
      = true :=
  ⟨rfl, rfl⟩

/-- Claim C7 as amended: `get_channel_flow` returns the bound flow when a
binding exists and its name resolves; when a binding exists but does not
resolve it returns `none` (no fallback to the default); only when no binding
exists does it return the default flow. -/
theorem get_channel_flow_resolution (db : FlowsDb) (ch1 ch2 ch3 : String)
    (b1 b2 : String × String) (cfg : FlowConfig)
    (h1 : db.channel_flows.find? (fun x => x.1 == ch1) = some b1)
    (h2 : get_flow db b1.2 = some cfg)
    (h3 : db.channel_flows.find? (fun x => x.1 == ch2) = some b2)
    (h4 : get_flow db b2.2 = none)
    (h5 : db.channel_flows.find? (fun x => x.1 == ch3) = none) :
    get_channel_flow db ch1 = some cfg
  ∧ get_channel_flow db ch2 = none
  ∧ get_channel_flow db ch3 = get_default_flow db := by
  refine ⟨?_, ?_, ?_⟩
  · unfold get_channel_flow
    rw [h1]
    exact h2
  · unfold get_channel_flow
    rw [h3]
    exact h4
  · unfold get_channel_flow
    rw [h5]

theorem countDefaults_append (a b : List FlowRow) :
    countDefaults (a ++ b) = countDefaults a + countDefaults b := by
  induction a with
  | nil => simp [countDefaults]
  | cons f t ih => simp [countDefaults, ih]; omega

theorem countDefaults_clear (l : List FlowRow) :
    countDefaults (l.map (fun f => { f with is_default := false })) = 0 := by
  induction l with
  | nil => rfl
  | cons f t ih => simp [countDefaults, ih]

theorem countDefaults_map_preserve (l : List FlowRow) (g : FlowRow → FlowRow)
    (hg : ∀ f, (g f).is_default = f.is_default) :
    countDefaults (l.map g) = countDefaults l := by
  induction l with
  | nil => rfl
  | cons f t ih => simp [countDefaults, ih, hg]

theorem countDefaults_filter_le (l : List FlowRow) (p : FlowRow → Bool) :
    countDefaults (l.filter p) ≤ countDefaults l := by
  induction l with
  | nil => exact Nat.le_refl 0
  | cons f t ih =>
    rw [List.filter_cons]
    by_cases h : p f = true
    · rw [if_pos h]
      simp only [countDefaults]
      omega
    · rw [if_neg h]
      simp only [countDefaults]
      omega

theorem countDefaults_set_default (l : List FlowRow) (name : String) :
    countDefaults (l.map (fun f => { f with is_default := f.name == name }))
      = countNamed name l := by
  induction l with
  | nil => rfl
  | cons f t ih =>
    by_cases h : f.name = name
    · simp [countDefaults, countNamed, h, ih]
    · simp [countDefaults, countNamed, h, ih]

theorem countNamed_zero_of_not_mem (l : List FlowRow) (name : String)
    (h : name ∉ l.map (fun f => f.name)) : countNamed name l = 0 := by
  induction l with
  | nil => rfl
  | cons f t ih =>
    simp only [List.map_cons, List.mem_cons] at h
    push_neg at h
    simp [countNamed, Ne.symm h.1, ih h.2]

theorem countNamed_le_one_of_nodup (l : List FlowRow) (name : String)
    (h : (l.map (fun f => f.name)).Nodup) : countNamed name l ≤ 1 := by
  induction l with
  | nil => exact Nat.zero_le 1
  | cons f t ih =>
    simp only [List.map_cons, List.nodup_cons] at h
    by_cases hf : f.name = name
    · rw [← hf] at *
      simp [countNamed, countNamed_zero_of_not_mem t f.name h.1]
    · simp only [countNamed, if_neg hf, Nat.zero_add]
      exact ih h.2

theorem countNamed_pos_of_any (l : List FlowRow) (name : String)
    (h : l.any (fun f => f.name == name) = true) : 1 ≤ countNamed name l := by
  induction l with
  | nil => simp at h
  | cons f t ih =>
    simp only [List.any_cons, Bool.or_eq_true, beq_iff_eq] at h
    by_cases hf : f.name = name
    · simp [countNamed, hf]
    · simp only [countNamed, if_neg hf, Nat.zero_add]
      exact ih (by simpa [hf] using h)

theorem any_name_map_set_default (l : List FlowRow) (x y : String) :
    ((l.map (fun f => { f with is_default := f.name == x })).any (fun f => f.name == y))
      = l.any (fun f => f.name == y) := by
  induction l with
  | nil => rfl
  | cons f t ih => simp [ih]

theorem countDefaults_set_default_twice (l : List FlowRow) (x y : String) :
    countDefaults ((l.map (fun f => { f with is_default := f.name == x })).map
      (fun f => { f with is_default := f.name == y })) = countNamed y l := by
  induction l with
  | nil => rfl
  | cons f t ih =>
    simp only [List.map_cons, countDefaults, countNamed, ih]
    by_cases h : f.name = y
    · simp [h]
    · simp [h]

theorem countDefaults_update_le (l : List FlowRow) (p : FlowRow → Bool)
    (g : FlowRow → FlowRow) (hg : ∀ f, (g f).is_default = f.is_default)
    (hd : countDefaults l ≤ 1) :
    countDefaults (l.map (fun f => if p f then g f else f)) ≤ 1 := by
  rw [countDefaults_map_preserve]
  · exact hd
  · intro f
    by_cases hf : p f = true <;> simp [hf, hg]

theorem set_default_flow_true_elim (db : FlowsDb) (name : String)
    (h : (set_default_flow db name).2 = true) : db_has_flow db name = true := by
  by_contra hc
  rw [Bool.not_eq_true] at hc
  unfold set_default_flow at h
  rw [hc] at h
  simp at h

theorem set_default_flow_fst_of_has (db : FlowsDb) (name : String)
    (h : db_has_flow db name = true) :
    (set_default_flow db name).1 =
      ⟨db.flows.map (fun f => { f with is_default := f.name == name }), db.channel_flows⟩ := by
  unfold set_default_flow
  rw [if_pos h]

/-- Claim C5: at most one flow row has the default flag set at any time:
`add_flow` (both with and without the default flag), `update_flow`,
`remove_flow`, `set_default_flow`, `set_channel_flow` and
`remove_channel_flow` all preserve the invariant, and after
`set_default_flow X` followed by `set_default_flow Y` (both succeeding, under
the primary-key uniqueness of flow names) exactly one flow has the flag and
every flagged flow is named Y. -/
theorem default_flow_uniqueness :
    (∀ db name url fid key desc isDef now, AtMostOneDefault db →
        AtMostOneDefault (add_flow db name url fid key desc isDef now).1)
  ∧ (∀ db name url fid key desc, AtMostOneDefault db →
        AtMostOneDefault (update_flow db name url fid key desc).1)
  ∧ (∀ db name, AtMostOneDefault db → AtMostOneDefault (remove_flow db name).1)
  ∧ (∀ db name, NamesUnique db → AtMostOneDefault db →
        AtMostOneDefault (set_default_flow db name).1)
  ∧ (∀ db ch fn, AtMostOneDefault db → AtMostOneDefault (set_channel_flow db ch fn).1)
  ∧ (∀ db ch, AtMostOneDefault db → AtMostOneDefault (remove_channel_flow db ch).1)
  ∧ (∀ db x y, NamesUnique db →
        (set_default_flow db x).2 = true →
        (set_default_flow (set_default_flow db x).1 y).2 = true →
        countDefaults (set_default_flow (set_default_flow db x).1 y).1.flows = 1
      ∧ ∀ f ∈ (set_default_flow (set_default_flow db x).1 y).1.flows,
          f.is_default = true → f.name = y) := by
  have hset : ∀ (db : FlowsDb) (name : String), NamesUnique db →
      AtMostOneDefault db → AtMostOneDefault (set_default_flow db name).1 := by
    intro db name hu hd
    unfold set_default_flow
    by_cases h : db_has_flow db name = true
    · simp only [h, if_pos]
      unfold AtMostOneDefault
      simp only
      rw [countDefaults_set_default]
      exact countNamed_le_one_of_nodup _ _ hu
    · simp only [h]
      simpa [AtMostOneDefault] using hd
  refine ⟨?_, ?_, ?_, hset, ?_, ?_, ?_⟩
  · intro db name url fid key desc isDef now hd
    unfold add_flow AtMostOneDefault at *
    by_cases h : db_has_flow db name = true
    · rw [if_pos h]
      exact hd
    · rw [if_neg h]
      cases isDef with
      | true =>
        show countDefaults ((db.flows.map (fun f => { f with is_default := false })) ++
            [⟨name, clean_slack_formatting url, fid, key, desc, now, true⟩]) ≤ 1
        rw [countDefaults_append, countDefaults_clear]
        simp [countDefaults]
      | false =>
        show countDefaults (db.flows ++
            [⟨name, clean_slack_formatting url, fid, key, desc, now, false⟩]) ≤ 1
        rw [countDefaults_append]
        simpa [countDefaults] using hd
  · intro db name url fid key desc hd
    unfold update_flow AtMostOneDefault at *
    by_cases h0 : url = none ∧ fid = none ∧ key = none ∧ desc = none
    · rw [if_pos h0]
      exact hd
    · rw [if_neg h0]
      by_cases h : db_has_flow db name = true
      · rw [if_pos h]
        exact countDefaults_update_le db.flows (fun f => f.name == name) _ (fun f => rfl) hd
      · rw [if_neg h]
        exact hd
  · intro db name hd
    unfold remove_flow AtMostOneDefault at *
    simp only
    exact Nat.le_trans (countDefaults_filter_le _ _) hd
  · intro db ch fn hd
    unfold set_channel_flow
    by_cases h : (get_flow db fn).isSome = true
    · simp only [h, if_pos]
      exact hd
    · simp only [h]
      simpa [AtMostOneDefault] using hd
  · intro db ch hd
    exact hd
  · intro db x y hu hx hy
    have hhx : db_has_flow db x = true := set_default_flow_true_elim db x hx
    rw [set_default_flow_fst_of_has db x hhx] at hy ⊢
    have hhy := set_default_flow_true_elim _ y hy
    have hany : db.flows.any (fun f => f.name == y) = true := by
      have h2 := hhy
      unfold db_has_flow at h2
      rw [any_name_map_set_default] at h2
      exact h2
    rw [set_default_flow_fst_of_has _ y hhy]
    constructor
    · rw [countDefaults_set_default_twice]
      exact Nat.le_antisymm (countNamed_le_one_of_nodup _ _ hu) (countNamed_pos_of_any _ _ hany)
    · intro f hf hdef
      rcases List.mem_map.mp hf with ⟨f1, _, rfl⟩
      simpa using hdef

/-- Concrete instance of `default_flow_uniqueness`: after making "X" the
default and then "Y", exactly one flow row carries the default flag. -/
theorem default_flow_uniqueness_witness :
    countDefaults (set_default_flow (set_default_flow
        ⟨[⟨"X", "u", "f", "k", none, 0, false⟩, ⟨"Y", "u", "f", "k", none, 0, false⟩], []⟩
        "X").1 "Y").1.flows = 1 :=
  (default_flow_uniqueness.2.2.2.2.2.2
    ⟨[⟨"X", "u", "f", "k", none, 0, false⟩, ⟨"Y", "u", "f", "k", none, 0, false⟩], []⟩
    "X" "Y" (by unfold NamesUnique; decide) rfl rfl).1

/-- Concrete instance of `get_channel_flow_resolution`. -/
theorem get_channel_flow_resolution_witness :
    get_channel_flow ⟨[⟨"d", "u", "f", "k", none, 0, true⟩, ⟨"F", "u", "f", "k", none, 0, false⟩],
        [("c1", "F"), ("c2", "ghost")]⟩ "c1" = some ⟨"F", "u", "f", "k", none, false⟩
  ∧ get_channel_flow ⟨[⟨"d", "u", "f", "k", none, 0, true⟩, ⟨"F", "u", "f", "k", none, 0, false⟩],
        [("c1", "F"), ("c2", "ghost")]⟩ "c2" = none
  ∧ get_channel_flow ⟨[⟨"d", "u", "f", "k", none, 0, true⟩, ⟨"F", "u", "f", "k", none, 0, false⟩],
        [("c1", "F"), ("c2", "ghost")]⟩ "c9" =
      get_default_flow ⟨[⟨"d", "u", "f", "k", none, 0, true⟩,
        ⟨"F", "u", "f", "k", none, 0, false⟩], [("c1", "F"), ("c2", "ghost")]⟩ :=
  get_channel_flow_resolution
    ⟨[⟨"d", "u", "f", "k", none, 0, true⟩, ⟨"F", "u", "f", "k", none, 0, false⟩],
      [("c1", "F"), ("c2", "ghost")]⟩
    "c1" "c2" "c9" ("c1", "F") ("c2", "ghost") ⟨"F", "u", "f", "k", none, false⟩
    rfl rfl rfl rfl rfl

end SlackBridge
